import Mathlib

/-!
Shallow embedding of the `paddle-take-home` extraction-and-normalization
pipeline (`src/python/spotify.py`, `src/python/table_generator.py`,
`src/python/main.py`).

Modelling conventions:
* A URL is abstracted to its parsed query string: an ordered list of
  `(key, value)` pairs, exactly the pairs that Python's
  `urllib.parse.parse_qs` would retain (blank-valued parameters are dropped
  by `parse_qs` and therefore never appear here).
* HTTP servers are pure functions from the request parameters the code
  actually varies (`limit` / `offset`, plus the playlist id for the track
  endpoint) to the parsed JSON body of the response.  The Python code sends
  `limit` / `offset` either as the Python ints `50` / `0` (the hard-coded
  initial page) or as the strings parsed from a `next` URL; `ParamValue`
  keeps that distinction.
* Python `while` loops become fuel-indexed recursion; an uncaught Python
  exception (e.g. subscripting `None`, a failed `assert`) becomes `none` of
  an `Option` result.
* `pandas` DataFrames become lists of typed rows in row order;
  `drop_duplicates()` (keep-first) becomes `dropDuplicates` below;
  `set_index` becomes pairing each row with its key.
-/

/-- Parsed query string of a URL: the `(key, value)` pairs `parse_qs` keeps. -/
structure Url where
  query : List (String × String)
deriving DecidableEq, Repr

/-- Value of a request parameter as the Python code passes it: either a
Python int (the hard-coded initial `limit=50`, `offset=0`) or a string
parsed out of a `next` URL by `get_limit_offset_from_url`. -/
inductive ParamValue
  | int (n : Int)
  | str (s : String)
deriving DecidableEq, Repr

/-- Embeds `urllib.parse.parse_qs(query).get(key)`: `none` when the key is
absent, otherwise the values listed under the key, in order. -/
def parse_qs_get (query : List (String × String)) (key : String) : Option (List String) :=
  let vals := (query.filter fun p => p.1 = key).map fun p => p.2
  if vals = [] then none else some vals

/-- Embeds `get_limit_offset_from_url` (spotify.py lines 188-195).
`parameters.get('limit')[0]` raises `TypeError` when the key is absent
(`None[0]`), modelled as `none`. -/
def get_limit_offset_from_url (u : Url) : Option (String × String) := do
  let limitVals ← parse_qs_get u.query "limit"
  let limit ← limitVals.head?
  let offsetVals ← parse_qs_get u.query "offset"
  let offset ← offsetVals.head?
  return (limit, offset)

/-- The `tracks` object of a simplified playlist: only `href` and `total`
are consumed downstream. -/
structure SPTracks where
  href : String
  total : Int
deriving DecidableEq, Repr

/-- A SimplifiedPlaylistObject as returned by the category listing. -/
structure SimplifiedPlaylist where
  id : String
  description : String
  name : String
  snapshot_id : String
  tracks : SPTracks
deriving DecidableEq, Repr

/-- An artist object embedded in a track. -/
structure ArtistRef where
  id : String
  name : String
deriving DecidableEq, Repr

/-- The `album` sub-object of a track: only `album_type` is consumed. -/
structure Album where
  album_type : String
deriving DecidableEq, Repr

/-- A track object. -/
structure Track where
  id : String
  name : String
  uri : String
  popularity : Int
  album : Album
  artists : List ArtistRef
deriving DecidableEq, Repr

/-- One entry of a playlist's `tracks.items` list. -/
structure TrackOccurrence where
  added_at : String
  track : Track
deriving DecidableEq, Repr

/-- A `{items, next}` page of track occurrences; both the `tracks` object of
a full playlist and the body of a Get Playlist Items response. -/
structure TracksPage where
  items : List TrackOccurrence
  next : Option Url
deriving DecidableEq, Repr

/-- The `followers` sub-object of a full playlist. -/
structure Followers where
  total : Int
deriving DecidableEq, Repr

/-- A full PlaylistObject: the fields the pipeline consumes. -/
structure Playlist where
  id : String
  followers : Followers
  tracks : TracksPage
deriving DecidableEq, Repr

/-- A `{items, next}` page of simplified playlists. -/
structure PlaylistsPage where
  items : List SimplifiedPlaylist
  next : Option Url
deriving DecidableEq, Repr

/-- Body of a Get Category Playlists response: the page under `playlists`. -/
structure CategoryPlaylistsResponse where
  playlists : PlaylistsPage
deriving DecidableEq, Repr

/-- Loop body of `get_all_category_simplified_playlists` (spotify.py lines
210-235).  `srv limit offset` is the parsed body of
`client.get_category_playlists(category_id, limit, offset)`; `fuel` bounds
the number of iterations of the Python `while` loop (`none` on exhaustion);
a `next` URL without both `limit` and `offset` raises in Python (`none`). -/
def get_all_category_go (srv : ParamValue → ParamValue → CategoryPlaylistsResponse) :
    Nat → ParamValue → ParamValue → List CategoryPlaylistsResponse →
      Option (List CategoryPlaylistsResponse)
  | 0, _, _, _ => none
  | fuel + 1, limit, offset, responses =>
    let response := srv limit offset
    let responses := responses ++ [response]
    match (response.playlists).next with
    | none => some responses
    | some u =>
      match get_limit_offset_from_url u with
      | none => none
      | some (l, o) => get_all_category_go srv fuel (.str l) (.str o) responses

/-- Embeds `get_all_category_simplified_playlists` (spotify.py lines
199-235): start from `limit = 50`, `offset = 0` (Python ints), empty
accumulator. -/
def get_all_category_simplified_playlists
    (srv : ParamValue → ParamValue → CategoryPlaylistsResponse) (fuel : Nat) :
    Option (List CategoryPlaylistsResponse) :=
  get_all_category_go srv fuel (.int 50) (.int 0) []

/-- Embeds `get_simplified_playlists_from_responses` (spotify.py lines
238-245): flatten the pages' item lists in page order. -/
def get_simplified_playlists_from_responses
    (responses : List CategoryPlaylistsResponse) : List SimplifiedPlaylist :=
  (responses.map fun r => r.playlists.items).flatten

/-- Inner `while tracks_next is not None` loop of
`populate_all_tracks_in_playlists` (spotify.py lines 294-311).
`srv pid limit offset` is the parsed body of
`client.get_playlist_items(pid, limit, offset)`.  The freshly returned
page's items are appended to the accumulated items; the cursor advances to
the returned page's `next`. -/
def populate_go (srv : String → ParamValue → ParamValue → TracksPage) (pid : String) :
    Nat → Option Url → List TrackOccurrence → Option (List TrackOccurrence)
  | _, none, items => some items
  | 0, some _, _ => none
  | fuel + 1, some u, items =>
    match get_limit_offset_from_url u with
    | none => none
    | some (l, o) =>
      let tracks := srv pid (.str l) (.str o)
      populate_go srv pid fuel tracks.next (items ++ tracks.items)

/-- Per-playlist body of the `for playlist in playlists` loop of
`populate_all_tracks_in_playlists` (spotify.py lines 288-311).  Only
`tracks['items']` is updated; `tracks['next']` is read into a local
variable and never written back. -/
def populate_one (srv : String → ParamValue → ParamValue → TracksPage) (fuel : Nat)
    (pl : Playlist) : Option Playlist :=
  match pl.tracks.next with
  | none => some pl
  | some u => do
    let items ← populate_go srv pl.id fuel (some u) pl.tracks.items
    return { pl with tracks := { items := items, next := pl.tracks.next } }

/-- Embeds `populate_all_tracks_in_playlists` (spotify.py lines 272-313):
process each playlist of the list in order; any raised exception aborts the
whole call (`none`). -/
def populate_all_tracks_in_playlists (srv : String → ParamValue → ParamValue → TracksPage)
    (fuel : Nat) : List Playlist → Option (List Playlist)
  | [] => some []
  | pl :: rest => do
    let pl' ← populate_one srv fuel pl
    let rest' ← populate_all_tracks_in_playlists srv fuel rest
    return pl' :: rest'

example : parse_qs_get [("limit", "50"), ("offset", "0")] "limit" = some ["50"] := by decide
example : get_limit_offset_from_url ⟨[("limit", "50"), ("offset", "0")]⟩ = some ("50", "0") := by
  decide
example : get_limit_offset_from_url ⟨[("offset", "0")]⟩ = none := by decide

/-! Embedding of `table_generator.py`. -/

/-- Keep-first exact-row deduplication, the behaviour of pandas
`DataFrame.drop_duplicates()` with its default `keep='first'`. -/
def dropDupAux [DecidableEq α] : List α → List α → List α
  | _, [] => []
  | seen, x :: xs =>
    if x ∈ seen then dropDupAux seen xs else x :: dropDupAux (x :: seen) xs

/-- Embeds `DataFrame.drop_duplicates()`: remove every row equal to an
earlier row, keeping first occurrences in order. -/
def dropDuplicates [DecidableEq α] (l : List α) : List α :=
  dropDupAux [] l

/-- One row of the cached `items_normalized` view (`get_items_normalized`,
table_generator.py lines 20-37): a track occurrence with the nested track
fields flattened to dotted columns and the owning playlist id attached.
Field `track_album_album_type` stands for column `track.album.album_type`,
and similarly for the other `track.*` columns. -/
structure ItemsNormalizedRow where
  added_at : String
  track_album_album_type : String
  track_id : String
  track_name : String
  track_popularity : Int
  track_uri : String
  track_artists : List ArtistRef
  playlist_id : String
deriving DecidableEq, Repr

/-- Pure content of `get_items_normalized`: unroll each playlist's
`tracks.items` into rows (playlist order, then item order) and tag each row
with its `playlist_id` (the index of `playlists_df`). -/
def items_normalized_of (playlists : List Playlist) : List ItemsNormalizedRow :=
  (playlists.map fun pl =>
    pl.tracks.items.map fun occ =>
      { added_at := occ.added_at
        track_album_album_type := occ.track.album.album_type
        track_id := occ.track.id
        track_name := occ.track.name
        track_popularity := occ.track.popularity
        track_uri := occ.track.uri
        track_artists := occ.track.artists
        playlist_id := pl.id }).flatten

/-- One row of the cached `artists_normalized` view
(`get_artists_normalized`, table_generator.py lines 40-58): an ArtistRef
flattened to columns, tagged with the owning `track_id`. -/
structure ArtistsNormalizedRow where
  id : String
  name : String
  track_id : String
deriving DecidableEq, Repr

/-- Pure content of `get_artists_normalized` as a function of the
`items_normalized` view: unroll each row's `track.artists` list, keeping
`track.id` as `track_id`. -/
def artists_normalized_of_items (items : List ItemsNormalizedRow) : List ArtistsNormalizedRow :=
  (items.map fun r =>
    r.track_artists.map fun a => { id := a.id, name := a.name, track_id := r.track_id }).flatten

/-- The state of a `TableGenerator` object: the two input DataFrames
(indexed by playlist id via `set_index('id')` in `main.transform`) and the
two lazily cached views. -/
structure TableGenerator where
  simplified_playlists_df : List SimplifiedPlaylist
  playlists_df : List Playlist
  items_normalized : Option (List ItemsNormalizedRow)
  artists_normalized : Option (List ArtistsNormalizedRow)
deriving DecidableEq, Repr

/-- Embeds `TableGenerator.__init__` (table_generator.py lines 7-18): both
optional view arguments are accepted but the cache attributes are assigned
the literal `None`, so the arguments are discarded. -/
def tableGeneratorInit (simplified_playlists_df : List SimplifiedPlaylist)
    (playlists_df : List Playlist)
    (items_normalized : Option (List ItemsNormalizedRow))
    (artists_normalized : Option (List ArtistsNormalizedRow)) : TableGenerator :=
  { simplified_playlists_df := simplified_playlists_df
    playlists_df := playlists_df
    items_normalized := none
    artists_normalized := none }

/-- Embeds `get_items_normalized` (table_generator.py lines 20-37): return
the cached view if set, otherwise compute it from `playlists_df` and cache
it.  Returns the view together with the updated object state. -/
def TableGenerator.getItemsNormalized (tg : TableGenerator) :
    List ItemsNormalizedRow × TableGenerator :=
  match tg.items_normalized with
  | some v => (v, tg)
  | none =>
    let v := items_normalized_of tg.playlists_df
    (v, { tg with items_normalized := some v })

/-- Embeds `get_artists_normalized` (table_generator.py lines 40-58):
return the cached view if set, otherwise compute it from the (possibly
freshly computed and cached) `items_normalized` view and cache it. -/
def TableGenerator.getArtistsNormalized (tg : TableGenerator) :
    List ArtistsNormalizedRow × TableGenerator :=
  match tg.artists_normalized with
  | some v => (v, tg)
  | none =>
    let r := tg.getItemsNormalized
    let v := artists_normalized_of_items r.1
    (v, { r.2 with artists_normalized := some v })

/-- One row of `category_playlist_records`, keyed by playlist id (the index
of `simplified_playlists_df`). -/
structure CategoryPlaylistRow where
  id : String
  description : String
  name : String
  snapshot_id : String
  tracks_url : String
  total_tracks : Int
deriving DecidableEq, Repr

/-- Embeds `category_playlist_records['description'].replace(r'\n', '',
regex=True)` on one value: the regex pattern is the single newline
character, and substituting the empty string deletes each match, so every
newline character is removed and every other character kept. -/
def sub_newline_chars : List Char → List Char
  | [] => []
  | c :: cs => if c = '\n' then sub_newline_chars cs else c :: sub_newline_chars cs

/-- String version of `sub_newline_chars`. -/
def sub_newline (s : String) : String :=
  (sub_newline_chars s.data).asString

/-- Pure content of `create_category_playlists_records` (table_generator.py
lines 61-76): project description, name, snapshot_id, add `tracks_url` and
`total_tracks` from the nested `tracks` object, then apply the newline
substitution to `description`. -/
def create_category_playlists_records_from (s : List SimplifiedPlaylist) :
    List CategoryPlaylistRow :=
  s.map fun r =>
    { id := r.id
      description := sub_newline r.description
      name := r.name
      snapshot_id := r.snapshot_id
      tracks_url := r.tracks.href
      total_tracks := r.tracks.total }

/-- Pure content of `create_playlist_records` (table_generator.py lines
79-86): the `followers.total` series, indexed by playlist id. -/
def create_playlist_records_from (playlists : List Playlist) : List (String × Int) :=
  playlists.map fun p => (p.id, p.followers.total)

/-- The five columns `create_tracks_records` selects before deduplication,
with the renamed column names. -/
structure TracksSubsetRow where
  album_type : String
  id : String
  name : String
  popularity : Int
  uri : String
deriving DecidableEq, Repr

/-- The non-index columns of `tracks_records` after `set_index('id')`. -/
structure TracksRec where
  album_type : String
  name : String
  popularity : Int
  uri : String
deriving DecidableEq, Repr

/-- Column selection and renaming of `create_tracks_records`. -/
def tracks_subset (items : List ItemsNormalizedRow) : List TracksSubsetRow :=
  items.map fun r =>
    { album_type := r.track_album_album_type
      id := r.track_id
      name := r.track_name
      popularity := r.track_popularity
      uri := r.track_uri }

/-- Pure content of `create_tracks_records` (table_generator.py lines
89-115): select and rename the five columns, `drop_duplicates()`, key by
`id`, then `assert tracks_records_unique_indexed.index.is_unique` — a
failed assert aborts the run (`none`). -/
def tracks_records_from (items : List ItemsNormalizedRow) :
    Option (List (String × TracksRec)) :=
  let uniq := dropDuplicates (tracks_subset items)
  if (uniq.map fun r => r.id).Nodup then
    some (uniq.map fun r =>
      (r.id, { album_type := r.album_type, name := r.name
               popularity := r.popularity, uri := r.uri }))
  else none

/-- One row of the `playlist_track_id_records` association table. -/
structure PlaylistTrackIdRow where
  playlist_id : String
  playlist_added_at : String
  track_id : String
deriving DecidableEq, Repr

/-- Pure content of `create_playlist_track_id_records` (table_generator.py
lines 118-135): select and rename three columns, one row per occurrence. -/
def playlist_track_id_records_from (items : List ItemsNormalizedRow) :
    List PlaylistTrackIdRow :=
  items.map fun r =>
    { playlist_id := r.playlist_id
      playlist_added_at := r.added_at
      track_id := r.track_id }

/-- One row of the `track_artist_id_records` association table. -/
structure TrackArtistIdRow where
  artist_id : String
  track_id : String
deriving DecidableEq, Repr

/-- Pure content of `create_track_artist_id_records` (table_generator.py
lines 138-153): select and rename two columns, one row per occurrence. -/
def track_artist_id_records_from (arts : List ArtistsNormalizedRow) :
    List TrackArtistIdRow :=
  arts.map fun a => { artist_id := a.id, track_id := a.track_id }

/-- One row of `artists_records`. -/
structure ArtistsRecRow where
  id : String
  name : String
deriving DecidableEq, Repr

/-- Pure content of `create_artists_records` (table_generator.py lines
155-164): select `id` and `name`, then exact-row `drop_duplicates()`. -/
def artists_records_from (arts : List ArtistsNormalizedRow) : List ArtistsRecRow :=
  dropDuplicates (arts.map fun a => { id := a.id, name := a.name })

/-- Method `create_category_playlists_records` on the object state. -/
def TableGenerator.create_category_playlists_records (tg : TableGenerator) :
    List CategoryPlaylistRow × TableGenerator :=
  (create_category_playlists_records_from tg.simplified_playlists_df, tg)

/-- Method `create_playlist_records` on the object state. -/
def TableGenerator.create_playlist_records (tg : TableGenerator) :
    List (String × Int) × TableGenerator :=
  (create_playlist_records_from tg.playlists_df, tg)

/-- Method `create_tracks_records` on the object state: first obtains (and
possibly caches) the `items_normalized` view. -/
def TableGenerator.create_tracks_records (tg : TableGenerator) :
    Option (List (String × TracksRec)) × TableGenerator :=
  let r := tg.getItemsNormalized
  (tracks_records_from r.1, r.2)

/-- Method `create_playlist_track_id_records` on the object state. -/
def TableGenerator.create_playlist_track_id_records (tg : TableGenerator) :
    List PlaylistTrackIdRow × TableGenerator :=
  let r := tg.getItemsNormalized
  (playlist_track_id_records_from r.1, r.2)

/-- Method `create_track_artist_id_records` on the object state. -/
def TableGenerator.create_track_artist_id_records (tg : TableGenerator) :
    List TrackArtistIdRow × TableGenerator :=
  let r := tg.getArtistsNormalized
  (track_artist_id_records_from r.1, r.2)

/-- Method `create_artists_records` on the object state. -/
def TableGenerator.create_artists_records (tg : TableGenerator) :
    List ArtistsRecRow × TableGenerator :=
  let r := tg.getArtistsNormalized
  (artists_records_from r.1, r.2)

/-- The six output tables of `main.transform`. -/
structure Tables where
  category_playlist_records : List CategoryPlaylistRow
  playlist_records : List (String × Int)
  tracks_records : List (String × TracksRec)
  playlist_track_id_records : List PlaylistTrackIdRow
  track_artist_id_records : List TrackArtistIdRow
  artists_records : List ArtistsRecRow
deriving DecidableEq, Repr

/-- Embeds the builder loop of `main.transform` (main.py lines 52-67): call
the six builders in the order of `table_func_mappings`, threading the
generator's state; the failed assert in `create_tracks_records` aborts the
run before any later builder executes. -/
def runAllTables (tg : TableGenerator) : Option Tables × TableGenerator :=
  let r1 := tg.create_category_playlists_records
  let r2 := r1.2.create_playlist_records
  let r3 := r2.2.create_tracks_records
  match r3.1 with
  | none => (none, r3.2)
  | some trk =>
    let r4 := r3.2.create_playlist_track_id_records
    let r5 := r4.2.create_track_artist_id_records
    let r6 := r5.2.create_artists_records
    (some { category_playlist_records := r1.1
            playlist_records := r2.1
            tracks_records := trk
            playlist_track_id_records := r4.1
            track_artist_id_records := r5.1
            artists_records := r6.1 }, r6.2)

/-- Embeds `main.transform` (main.py lines 40-67): build a fresh
`TableGenerator` from the two collections and run the six builders. -/
def transform (simplified_playlists : List SimplifiedPlaylist)
    (playlists : List Playlist) : Option Tables :=
  (runAllTables (tableGeneratorInit simplified_playlists playlists none none)).1

/-! Helper lemmas about the embedded operations. -/

theorem dropDupAux_cons [DecidableEq α] (seen : List α) (x : α) (xs : List α) :
    dropDupAux seen (x :: xs)
      = if x ∈ seen then dropDupAux seen xs else x :: dropDupAux (x :: seen) xs := rfl

theorem mem_dropDupAux [DecidableEq α] {a : α} :
    ∀ (l seen : List α), a ∈ dropDupAux seen l ↔ a ∈ l ∧ a ∉ seen := by
  intro l
  induction l with
  | nil => intro seen; simp [dropDupAux]
  | cons x xs ih =>
    intro seen
    rw [dropDupAux_cons]
    by_cases hx : x ∈ seen
    · by_cases hax : a = x
      · subst hax; simp [if_pos hx, ih, hx]
      · simp [if_pos hx, ih, hax]
    · by_cases hax : a = x
      · subst hax; simp [if_neg hx, ih, hx]
      · simp [if_neg hx, ih, hax]

theorem nodup_dropDupAux [DecidableEq α] :
    ∀ (l seen : List α), (dropDupAux seen l).Nodup := by
  intro l
  induction l with
  | nil => intro seen; simp [dropDupAux]
  | cons x xs ih =>
    intro seen
    rw [dropDupAux_cons]
    by_cases hx : x ∈ seen
    · simpa [if_pos hx] using ih seen
    · rw [if_neg hx]
      refine List.nodup_cons.mpr ⟨fun hmem => ?_, ih (x :: seen)⟩
      exact ((mem_dropDupAux xs (x :: seen)).mp hmem).2 (List.mem_cons_self x seen)

theorem mem_dropDuplicates [DecidableEq α] {a : α} {l : List α} :
    a ∈ dropDuplicates l ↔ a ∈ l := by
  simp [dropDuplicates, mem_dropDupAux]

theorem nodup_dropDuplicates [DecidableEq α] (l : List α) :
    (dropDuplicates l).Nodup :=
  nodup_dropDupAux l []

theorem sub_newline_chars_eq_filter :
    ∀ cs : List Char, sub_newline_chars cs = cs.filter fun c => c ≠ '\n' := by
  intro cs
  induction cs with
  | nil => rfl
  | cons c cs ih =>
    by_cases hc : c = '\n'
    · simp [sub_newline_chars, hc, ih]
    · simp [sub_newline_chars, hc, ih]

/-- A run of the category-playlists paginator described request by request:
`reqChain srv reqs = true` states that issuing the requests of `reqs` in
order against `srv` yields pages whose `next` URL parses to exactly the
following request's `limit` and `offset` (as strings), with the final
page's `next` null. -/
def reqChain (srv : ParamValue → ParamValue → CategoryPlaylistsResponse) :
    List (ParamValue × ParamValue) → Bool
  | [] => true
  | [q] =>
    match (srv q.1 q.2).playlists.next with
    | none => true
    | some _ => false
  | q :: q' :: rest =>
    match (srv q.1 q.2).playlists.next with
    | none => false
    | some u =>
      match get_limit_offset_from_url u with
      | none => false
      | some (l, o) =>
        decide (q' = (ParamValue.str l, ParamValue.str o)) && reqChain srv (q' :: rest)

theorem get_all_category_go_chain (srv : ParamValue → ParamValue → CategoryPlaylistsResponse) :
    ∀ (rest : List (ParamValue × ParamValue)) (q : ParamValue × ParamValue)
      (fuel : Nat) (acc : List CategoryPlaylistsResponse),
      reqChain srv (q :: rest) = true → (q :: rest).length ≤ fuel →
      get_all_category_go srv fuel q.1 q.2 acc
        = some (acc ++ (q :: rest).map fun r => srv r.1 r.2) := by
  intro rest
  induction rest with
  | nil =>
    intro q fuel acc hchain hfuel
    cases fuel with
    | zero => simp at hfuel
    | succ f =>
      cases hn : (srv q.1 q.2).playlists.next with
      | none => simp [get_all_category_go, hn]
      | some u => simp [reqChain, hn] at hchain
  | cons q' rest ih =>
    intro q fuel acc hchain hfuel
    cases fuel with
    | zero => simp at hfuel
    | succ f =>
      cases hn : (srv q.1 q.2).playlists.next with
      | none => simp [reqChain, hn] at hchain
      | some u =>
        cases hp : get_limit_offset_from_url u with
        | none => simp [reqChain, hn, hp] at hchain
        | some lo =>
          obtain ⟨l, o⟩ := lo
          simp only [reqChain, hn, hp, Bool.and_eq_true, decide_eq_true_eq] at hchain
          obtain ⟨rfl, hchain⟩ := hchain
          have hlen : (((ParamValue.str l, ParamValue.str o)) :: rest).length ≤ f := by
            simpa using Nat.lt_succ_iff.mp (Nat.lt_of_lt_of_le (by simp) hfuel)
          have := ih (ParamValue.str l, ParamValue.str o) f (acc ++ [srv q.1 q.2]) hchain hlen
          simp only [get_all_category_go, hn, hp]
          simp only [this, List.map_cons, List.append_assoc, List.cons_append,
            List.nil_append, List.singleton_append]

/-- A run of the track-backfill paginator described page by page:
`trackChain srv pid cursor pages = true` states that starting from the
cursor URL `cursor`, requesting each page with the `limit` / `offset`
parsed from the current cursor yields the item lists of `pages` in order,
each page's `next` becoming the following cursor, with the final `next`
null. -/
def trackChain (srv : String → ParamValue → ParamValue → TracksPage) (pid : String) :
    Option Url → List (List TrackOccurrence) → Bool
  | none, [] => true
  | none, _ :: _ => false
  | some _, [] => false
  | some u, page :: rest =>
    match get_limit_offset_from_url u with
    | none => false
    | some (l, o) =>
      let r := srv pid (.str l) (.str o)
      decide (r.items = page) && trackChain srv pid r.next rest

theorem populate_go_chain (srv : String → ParamValue → ParamValue → TracksPage) (pid : String) :
    ∀ (pages : List (List TrackOccurrence)) (cursor : Option Url)
      (fuel : Nat) (items res : List TrackOccurrence),
      trackChain srv pid cursor pages = true →
      populate_go srv pid fuel cursor items = some res →
      res = items ++ pages.flatten := by
  intro pages
  induction pages with
  | nil =>
    intro cursor fuel items res hchain hrun
    cases cursor with
    | none =>
      cases fuel with
      | zero => simp [populate_go] at hrun; simp [hrun.symm]
      | succ f => simp [populate_go] at hrun; simp [hrun.symm]
    | some u => simp [trackChain] at hchain
  | cons pg rest ih =>
    intro cursor fuel items res hchain hrun
    cases cursor with
    | none => simp [trackChain] at hchain
    | some u =>
      cases fuel with
      | zero => simp [populate_go] at hrun
      | succ f =>
        cases hp : get_limit_offset_from_url u with
        | none => simp [trackChain, hp] at hchain
        | some lo =>
          obtain ⟨l, o⟩ := lo
          simp only [trackChain, hp, Bool.and_eq_true, decide_eq_true_eq] at hchain
          obtain ⟨hitems, hchain⟩ := hchain
          simp only [populate_go, hp] at hrun
          have := ih (srv pid (.str l) (.str o)).next f
            (items ++ (srv pid (.str l) (.str o)).items) res hchain hrun
          simp only [this, hitems, List.flatten_cons, List.append_assoc]

theorem populate_one_chain (srv : String → ParamValue → ParamValue → TracksPage)
    (fuel : Nat) (pl pl' : Playlist) (pages : List (List TrackOccurrence))
    (hchain : trackChain srv pl.id pl.tracks.next pages = true)
    (hrun : populate_one srv fuel pl = some pl') :
    pl' = { pl with tracks := { items := pl.tracks.items ++ pages.flatten
                                next := pl.tracks.next } } := by
  cases hn : pl.tracks.next with
  | none =>
    cases pages with
    | nil =>
      simp only [populate_one, hn] at hrun
      cases hrun
      obtain ⟨pid, fol, tr⟩ := pl
      obtain ⟨its, nxt⟩ := tr
      simp only at hn
      subst hn
      simp
    | cons pg rest => rw [hn] at hchain; simp [trackChain] at hchain
  | some u =>
    simp only [populate_one, hn, Option.bind_eq_bind, Option.bind_eq_some] at hrun
    obtain ⟨items, hgo, hpl'⟩ := hrun
    rw [hn] at hchain
    have := populate_go_chain srv pl.id pages (some u) fuel pl.tracks.items items hchain hgo
    cases hpl'
    simp [this, hn]

theorem populate_getElem? (srv : String → ParamValue → ParamValue → TracksPage) (fuel : Nat) :
    ∀ (pls out : List Playlist) (i : Nat) (pl : Playlist),
      populate_all_tracks_in_playlists srv fuel pls = some out →
      pls[i]? = some pl →
      ∃ pl', out[i]? = some pl' ∧ populate_one srv fuel pl = some pl' := by
  intro pls
  induction pls with
  | nil => intro out i pl hrun hget; simp at hget
  | cons a rest ih =>
    intro out i pl hrun hget
    simp only [populate_all_tracks_in_playlists, Option.bind_eq_bind, Option.bind_eq_some] at hrun
    obtain ⟨a', ha', rest', hrest', hout⟩ := hrun
    cases hout
    cases i with
    | zero =>
      simp only [List.getElem?_cons_zero, Option.some.injEq] at hget
      exact ⟨a', by simp, hget ▸ ha'⟩
    | succ n =>
      simp only [List.getElem?_cons_succ] at hget
      obtain ⟨pl', h1, h2⟩ := ih rest' n pl hrest' hget
      exact ⟨pl', by simpa using h1, h2⟩

theorem parse_qs_keys_iff (query : List (String × String)) (k : String) :
    k ∈ query.map Prod.fst ↔ ((query.filter fun p => p.1 = k).map fun p => p.2) ≠ [] := by
  constructor
  · intro hk h
    obtain ⟨p, hp, hpk⟩ := List.mem_map.mp hk
    have hpf : p ∈ query.filter fun p => p.1 = k := List.mem_filter.mpr ⟨hp, by simp [hpk]⟩
    have : p.2 ∈ (query.filter fun p => p.1 = k).map fun p => p.2 := List.mem_map_of_mem _ hpf
    rw [h] at this
    exact absurd this (List.not_mem_nil _)
  · intro h
    rcases hf : query.filter fun p => p.1 = k with _ | ⟨p, ps⟩
    · rw [hf] at h; exact absurd rfl h
    · have hp : p ∈ query.filter fun p => p.1 = k := by rw [hf]; exact List.mem_cons_self _ _
      obtain ⟨hpq, hpk⟩ := List.mem_filter.mp hp
      exact List.mem_map.mpr ⟨p, hpq, by simpa using hpk⟩

/-! Claim theorems. -/

/-- C3: for every sequence of pages whose next-page URL becomes null after
k pages (k at least one: `reqs` is nonempty), the pagination loop of
`get_all_category_simplified_playlists` returns exactly the k pages in
server order, the first requested with the hard-coded `limit = 50`,
`offset = 0` and each later one requested with precisely the `limit` and
`offset` string values parsed from the preceding page's `next` URL
(`reqChain`), never with locally incremented values. -/
theorem claim3_pagination_follows_parsed_cursor
    (srv : ParamValue → ParamValue → CategoryPlaylistsResponse)
    (reqs : List (ParamValue × ParamValue)) (fuel : Nat)
    (hchain : reqChain srv reqs = true)
    (hfirst : reqs.head? = some (ParamValue.int 50, ParamValue.int 0))
    (hfuel : reqs.length ≤ fuel) :
    get_all_category_simplified_playlists srv fuel
      = some (reqs.map fun r => srv r.1 r.2) := by
  cases reqs with
  | nil => simp at hfirst
  | cons q rest =>
    simp only [List.head?_cons, Option.some.injEq] at hfirst
    subst hfirst
    have := get_all_category_go_chain srv rest (ParamValue.int 50, ParamValue.int 0)
      fuel [] hchain hfuel
    simpa [get_all_category_simplified_playlists] using this

def c3Url : Url := ⟨[("limit", "50"), ("offset", "50")]⟩

def c3Srv : ParamValue → ParamValue → CategoryPlaylistsResponse := fun _ o =>
  if o = ParamValue.int 0 then ⟨⟨[], some c3Url⟩⟩ else ⟨⟨[], none⟩⟩

def c3Reqs : List (ParamValue × ParamValue) :=
  [(ParamValue.int 50, ParamValue.int 0), (ParamValue.str "50", ParamValue.str "50")]

theorem claim3_witness :
    get_all_category_simplified_playlists c3Srv 2
      = some (c3Reqs.map fun r => c3Srv r.1 r.2) :=
  claim3_pagination_follows_parsed_cursor c3Srv c3Reqs 2 (by decide) (by decide) (by decide)

/-- C1: for a playlist at position i of the input whose `tracks.next`
chains through two further pages of items `items1` and `items2` (the last
page's `next` null), a successful `populate_all_tracks_in_playlists` run
leaves that playlist with `tracks.items` equal to the original items
followed by `items1` then `items2` — appended in page order, never
replaced — whose length is the sum p+q+r of the three page lengths. -/
theorem claim1_backfill_three_pages
    (srv : String → ParamValue → ParamValue → TracksPage) (fuel : Nat)
    (playlists out : List Playlist) (i : Nat) (pl : Playlist)
    (u0 u1 : Url) (l0 o0 l1 o1 : String)
    (items1 items2 : List TrackOccurrence)
    (hget : playlists[i]? = some pl)
    (hnext : pl.tracks.next = some u0)
    (hp0 : get_limit_offset_from_url u0 = some (l0, o0))
    (hs1 : srv pl.id (.str l0) (.str o0) = ⟨items1, some u1⟩)
    (hp1 : get_limit_offset_from_url u1 = some (l1, o1))
    (hs2 : srv pl.id (.str l1) (.str o1) = ⟨items2, none⟩)
    (hrun : populate_all_tracks_in_playlists srv fuel playlists = some out) :
    out[i]? = some { pl with tracks := { items := pl.tracks.items ++ items1 ++ items2
                                         next := pl.tracks.next } }
    ∧ (pl.tracks.items ++ items1 ++ items2).length
        = pl.tracks.items.length + items1.length + items2.length := by
  obtain ⟨pl', hout, hone⟩ := populate_getElem? srv fuel playlists out i pl hrun hget
  have hchain : trackChain srv pl.id pl.tracks.next [items1, items2] = true := by
    rw [hnext]
    simp [trackChain, hp0, hs1, hp1, hs2]
  have heq := populate_one_chain srv fuel pl pl' [items1, items2] hchain hone
  subst heq
  refine ⟨?_, by simp [Nat.add_assoc]⟩
  simpa [List.append_assoc] using hout

def c1Track (t : String) : Track :=
  { id := t, name := "Song", uri := "spotify:track:1", popularity := 10
    album := { album_type := "album" }, artists := [{ id := "AR1", name := "X" }] }

def c1Occ (t : String) : TrackOccurrence := { added_at := "2024", track := c1Track t }

def c1U0 : Url := ⟨[("limit", "100"), ("offset", "100")]⟩

def c1U1 : Url := ⟨[("limit", "100"), ("offset", "200")]⟩

def c1Srv : String → ParamValue → ParamValue → TracksPage := fun _ _ o =>
  if o = ParamValue.str "100" then ⟨[c1Occ "t2"], some c1U1⟩ else ⟨[c1Occ "t3"], none⟩

def c1Pl : Playlist := { id := "P1", followers := ⟨5⟩, tracks := ⟨[c1Occ "t1"], some c1U0⟩ }

def c1Out : List Playlist :=
  [{ c1Pl with tracks := { items := [c1Occ "t1", c1Occ "t2", c1Occ "t3"]
                           next := some c1U0 } }]

theorem claim1_witness :
    c1Out[0]? = some { c1Pl with
        tracks := { items := c1Pl.tracks.items ++ [c1Occ "t2"] ++ [c1Occ "t3"]
                    next := c1Pl.tracks.next } }
    ∧ (c1Pl.tracks.items ++ [c1Occ "t2"] ++ [c1Occ "t3"]).length
        = c1Pl.tracks.items.length + [c1Occ "t2"].length + [c1Occ "t3"].length :=
  claim1_backfill_three_pages c1Srv 2 [c1Pl] c1Out 0 c1Pl c1U0 c1U1 "100" "100" "100" "200"
    [c1Occ "t2"] [c1Occ "t3"] (by decide) (by decide) (by decide) (by decide) (by decide)
    (by decide) (by decide)

/-- C2 counterexample: `populate_all_tracks_in_playlists` returns with the
playlist's `tracks.next` still holding the original URL, not null — the
loop only advances a local variable and never writes the field back. -/
theorem claim2_counterexample :
    (populate_all_tracks_in_playlists (fun _ _ _ => ⟨[], none⟩) 1
        [{ id := "P2", followers := ⟨0⟩
           tracks := ⟨[], some ⟨[("limit", "100"), ("offset", "100")]⟩⟩ }]).map
      (fun out => out.map fun pl => pl.tracks.next)
      = some [some ⟨[("limit", "100"), ("offset", "100")]⟩]
    ∧ some (⟨[("limit", "100"), ("offset", "100")]⟩ : Url) ≠ (none : Option Url) := by
  decide

/-- C2 (amended): after a successful `populate_all_tracks_in_playlists`
run, each input playlist's `tracks.next` field is unchanged — it retains
its original (possibly non-null) value, since the loop never writes it —
while `tracks.items` holds all of its track occurrences in original
pagination order (original items followed by every fetched page's items in
page order). -/
theorem claim2_next_unchanged_items_complete
    (srv : String → ParamValue → ParamValue → TracksPage) (fuel : Nat)
    (playlists out : List Playlist) (i : Nat) (pl : Playlist)
    (pages : List (List TrackOccurrence))
    (hget : playlists[i]? = some pl)
    (hchain : trackChain srv pl.id pl.tracks.next pages = true)
    (hrun : populate_all_tracks_in_playlists srv fuel playlists = some out) :
    out[i]? = some { pl with tracks := { items := pl.tracks.items ++ pages.flatten
                                         next := pl.tracks.next } } := by
  obtain ⟨pl', hout, hone⟩ := populate_getElem? srv fuel playlists out i pl hrun hget
  rw [populate_one_chain srv fuel pl pl' pages hchain hone] at hout
  exact hout

def c2wU : Url := ⟨[("limit", "10"), ("offset", "10")]⟩

def c2wOcc : TrackOccurrence :=
  { added_at := "2024", track := { id := "T", name := "N", uri := "U", popularity := 1
                                   album := { album_type := "a" }, artists := [] } }

def c2wSrv : String → ParamValue → ParamValue → TracksPage := fun _ _ _ => ⟨[c2wOcc], none⟩

def c2wPl : Playlist := { id := "PW", followers := ⟨0⟩, tracks := ⟨[], some c2wU⟩ }

def c2wOut : List Playlist :=
  [{ c2wPl with tracks := { items := [c2wOcc], next := some c2wU } }]

theorem claim2_witness :
    c2wOut[0]? = some { c2wPl with
        tracks := { items := c2wPl.tracks.items ++ [[c2wOcc]].flatten
                    next := c2wPl.tracks.next } } :=
  claim2_next_unchanged_items_complete c2wSrv 1 [c2wPl] c2wOut 0 c2wPl [[c2wOcc]]
    (by decide) (by decide) (by decide)

/-- C10: `get_limit_offset_from_url` succeeds exactly when the URL's query
carries both a `limit` and an `offset` parameter (missing either one makes
it raise, modelled as `none`, rather than defaulting), and in consequence
both pagination loops abort when a non-null `next` URL lacks either
parameter. -/
theorem claim10_limit_offset_required :
    (∀ u : Url, (get_limit_offset_from_url u).isSome
        ↔ ("limit" ∈ u.query.map Prod.fst ∧ "offset" ∈ u.query.map Prod.fst))
    ∧ (∀ (srv : ParamValue → ParamValue → CategoryPlaylistsResponse) (fuel : Nat)
        (limit offset : ParamValue) (acc : List CategoryPlaylistsResponse) (u : Url),
        (srv limit offset).playlists.next = some u →
        get_limit_offset_from_url u = none →
        get_all_category_go srv (fuel + 1) limit offset acc = none)
    ∧ (∀ (srv : String → ParamValue → ParamValue → TracksPage) (pid : String)
        (fuel : Nat) (u : Url) (items : List TrackOccurrence),
        get_limit_offset_from_url u = none →
        populate_go srv pid fuel (some u) items = none) := by
  refine ⟨fun u => ?_, fun srv fuel limit offset acc u hnext hparse => ?_,
    fun srv pid fuel u items hparse => ?_⟩
  · by_cases hl : ((u.query.filter fun p => p.1 = "limit").map fun p => p.2) = []
    · have h1 : parse_qs_get u.query "limit" = none := by
        simp only [parse_qs_get]
        exact if_pos hl
      simp only [get_limit_offset_from_url, h1, Option.bind_eq_bind, Option.none_bind,
        Option.isSome_none, Bool.false_eq_true, false_iff, not_and]
      intro hmem
      exact (((parse_qs_keys_iff u.query "limit").mp hmem) hl).elim
    · have h1 : parse_qs_get u.query "limit"
          = some ((u.query.filter fun p => p.1 = "limit").map fun p => p.2) := by
        simp only [parse_qs_get]
        exact if_neg hl
      rcases hv : (u.query.filter fun p => p.1 = "limit").map fun p => p.2 with _ | ⟨v, vs⟩
      · exact absurd hv hl
      · by_cases ho : ((u.query.filter fun p => p.1 = "offset").map fun p => p.2) = []
        · have h2 : parse_qs_get u.query "offset" = none := by
            simp only [parse_qs_get]
            exact if_pos ho
          simp only [get_limit_offset_from_url, h1, hv, h2, Option.bind_eq_bind,
            Option.some_bind, List.head?_cons, Option.none_bind, Option.isSome_none,
            Bool.false_eq_true, false_iff, not_and]
          intro _ hmem
          exact ((parse_qs_keys_iff u.query "offset").mp hmem) ho
        · have h2 : parse_qs_get u.query "offset"
              = some ((u.query.filter fun p => p.1 = "offset").map fun p => p.2) := by
            simp only [parse_qs_get]
            exact if_neg ho
          rcases hw : (u.query.filter fun p => p.1 = "offset").map fun p => p.2 with _ | ⟨w, ws⟩
          · exact absurd hw ho
          · simp only [get_limit_offset_from_url, h1, hv, h2, hw, Option.bind_eq_bind,
              Option.some_bind, List.head?_cons, Option.pure_def, Option.isSome_some, true_iff]
            constructor
            · exact (parse_qs_keys_iff u.query "limit").mpr (by simp [hv])
            · exact (parse_qs_keys_iff u.query "offset").mpr (by simp [hw])
  · simp [get_all_category_go, hnext, hparse]
  · cases fuel with
    | zero => simp [populate_go]
    | succ f => simp [populate_go, hparse]

def c10U : Url := ⟨[("offset", "3")]⟩

def c10Srv : ParamValue → ParamValue → CategoryPlaylistsResponse :=
  fun _ _ => ⟨⟨[], some c10U⟩⟩

def c10TSrv : String → ParamValue → ParamValue → TracksPage := fun _ _ _ => ⟨[], none⟩

theorem claim10_witness :
    get_all_category_go c10Srv 5 (ParamValue.int 50) (ParamValue.int 0) [] = none
    ∧ populate_go c10TSrv "P" 5 (some c10U) [] = none :=
  ⟨claim10_limit_offset_required.2.1 c10Srv 4 (ParamValue.int 50) (ParamValue.int 0) []
      c10U rfl (by decide),
   claim10_limit_offset_required.2.2 c10TSrv "P" 5 c10U [] (by decide)⟩

/-- C4: `create_tracks_records` drops exact-duplicate rows first, then keys
by track id and asserts index uniqueness: whenever two rows remaining after
deduplication share an `id` yet are different rows (so they differ in some
other column), the assert fails and the run stops (`none` instead of a
table); when the remaining ids are unique it returns the deduplicated table
keyed by `id`. -/
theorem claim4_tracks_records_assert
    (s : List SimplifiedPlaylist) (p : List Playlist)
    (a : Option (List ItemsNormalizedRow)) (b : Option (List ArtistsNormalizedRow)) :
    ((∃ r1 ∈ dropDuplicates (tracks_subset (items_normalized_of p)),
      ∃ r2 ∈ dropDuplicates (tracks_subset (items_normalized_of p)),
        r1.id = r2.id ∧ r1 ≠ r2) →
      ((tableGeneratorInit s p a b).create_tracks_records).1 = none)
    ∧ (((dropDuplicates (tracks_subset (items_normalized_of p))).map fun r => r.id).Nodup →
      ((tableGeneratorInit s p a b).create_tracks_records).1
        = some ((dropDuplicates (tracks_subset (items_normalized_of p))).map fun r =>
            (r.id, { album_type := r.album_type, name := r.name
                     popularity := r.popularity, uri := r.uri }))) := by
  have hmeth : ((tableGeneratorInit s p a b).create_tracks_records).1
      = tracks_records_from (items_normalized_of p) := rfl
  constructor
  · rintro ⟨r1, h1, r2, h2, hid, hne⟩
    rw [hmeth]
    unfold tracks_records_from
    rw [if_neg]
    intro hnd
    exact hne (List.inj_on_of_nodup_map hnd h1 h2 hid)
  · intro hnd
    rw [hmeth]
    unfold tracks_records_from
    rw [if_pos hnd]

def c4Track (n : String) : Track :=
  { id := "T1", name := n, uri := "u", popularity := 1
    album := { album_type := "album" }, artists := [] }

def c4Pl : Playlist :=
  { id := "P4", followers := ⟨0⟩
    tracks := ⟨[{ added_at := "d1", track := c4Track "A" },
                { added_at := "d2", track := c4Track "B" }], none⟩ }

theorem claim4_witness :
    ((tableGeneratorInit [] [c4Pl] none none).create_tracks_records).1 = none :=
  (claim4_tracks_records_assert [] [c4Pl] none none).1 (by decide)

/-- C5: on every extracted input whose table construction succeeds
(`transform` produces tables instead of stopping at the uniqueness assert),
every `track_id` of `playlist_track_id_records` occurs exactly once among
the index keys of `tracks_records`, and every `artist_id` of
`track_artist_id_records` occurs among the ids of `artists_records`. -/
theorem claim5_referential_consistency
    (s : List SimplifiedPlaylist) (p : List Playlist) (tables : Tables)
    (h : transform s p = some tables) :
    (∀ row ∈ tables.playlist_track_id_records,
        (tables.tracks_records.map Prod.fst).count row.track_id = 1)
    ∧ (∀ row ∈ tables.track_artist_id_records,
        row.artist_id ∈ tables.artists_records.map fun ar => ar.id) := by
  rcases htr : tracks_records_from (items_normalized_of p) with _ | trk
  · exfalso
    have hnone : transform s p = none := by
      simp only [transform, runAllTables, TableGenerator.create_category_playlists_records,
        TableGenerator.create_playlist_records, TableGenerator.create_tracks_records,
        TableGenerator.getItemsNormalized, tableGeneratorInit, htr]
    rw [hnone] at h
    exact Option.noConfusion h
  · have hsome : transform s p = some
        { category_playlist_records := create_category_playlists_records_from s
          playlist_records := create_playlist_records_from p
          tracks_records := trk
          playlist_track_id_records := playlist_track_id_records_from (items_normalized_of p)
          track_artist_id_records :=
            track_artist_id_records_from (artists_normalized_of_items (items_normalized_of p))
          artists_records :=
            artists_records_from (artists_normalized_of_items (items_normalized_of p)) } := by
      simp only [transform, runAllTables, TableGenerator.create_category_playlists_records,
        TableGenerator.create_playlist_records, TableGenerator.create_tracks_records,
        TableGenerator.create_playlist_track_id_records,
        TableGenerator.create_track_artist_id_records, TableGenerator.create_artists_records,
        TableGenerator.getItemsNormalized, TableGenerator.getArtistsNormalized,
        tableGeneratorInit, htr]
    rw [hsome] at h
    have hT := (Option.some.inj h).symm
    obtain ⟨hnd, htrk⟩ : ((dropDuplicates (tracks_subset (items_normalized_of p))).map
        fun r => r.id).Nodup
        ∧ trk = (dropDuplicates (tracks_subset (items_normalized_of p))).map fun r =>
            (r.id, { album_type := r.album_type, name := r.name
                     popularity := r.popularity, uri := r.uri }) := by
      unfold tracks_records_from at htr
      by_cases hnd : ((dropDuplicates (tracks_subset (items_normalized_of p))).map
          fun r => r.id).Nodup
      · rw [if_pos hnd] at htr
        exact ⟨hnd, (Option.some.inj htr).symm⟩
      · rw [if_neg hnd] at htr
        exact Option.noConfusion htr
    subst hT
    constructor
    · intro row hrow
      obtain ⟨r, hr, hrrow⟩ := List.mem_map.mp hrow
      have hsub : ({ album_type := r.track_album_album_type, id := r.track_id,
                     name := r.track_name, popularity := r.track_popularity,
                     uri := r.track_uri } : TracksSubsetRow)
          ∈ tracks_subset (items_normalized_of p) :=
        List.mem_map_of_mem _ hr
      have huniq := mem_dropDuplicates.mpr hsub
      have hid : row.track_id ∈ trk.map Prod.fst := by
        rw [htrk, List.map_map]
        refine List.mem_map.mpr ⟨_, huniq, ?_⟩
        rw [← hrrow]
        rfl
      have hndfst : (trk.map Prod.fst).Nodup := by
        rw [htrk, List.map_map]
        exact hnd
      exact List.count_eq_one_of_mem hndfst hid
    · intro row hrow
      obtain ⟨ar, har, harrow⟩ := List.mem_map.mp hrow
      have hrec : ({ id := ar.id, name := ar.name } : ArtistsRecRow)
          ∈ (artists_normalized_of_items (items_normalized_of p)).map
              fun x => ({ id := x.id, name := x.name } : ArtistsRecRow) :=
        List.mem_map_of_mem _ har
      have hmem : ({ id := ar.id, name := ar.name } : ArtistsRecRow)
          ∈ artists_records_from (artists_normalized_of_items (items_normalized_of p)) :=
        mem_dropDuplicates.mpr hrec
      refine List.mem_map.mpr ⟨_, hmem, ?_⟩
      rw [← harrow]

def c5Track : Track :=
  { id := "T1", name := "Song", uri := "u1", popularity := 7
    album := { album_type := "album" }, artists := [{ id := "AR1", name := "X" }] }

def c5Pl : Playlist :=
  { id := "P5", followers := ⟨3⟩
    tracks := ⟨[{ added_at := "2024", track := c5Track }], none⟩ }

def c5Sp : SimplifiedPlaylist :=
  { id := "P5", description := "d", name := "n", snapshot_id := "s"
    tracks := { href := "h", total := 1 } }

def c5Tables : Tables :=
  { category_playlist_records := create_category_playlists_records_from [c5Sp]
    playlist_records := create_playlist_records_from [c5Pl]
    tracks_records := [("T1", { album_type := "album", name := "Song"
                                popularity := 7, uri := "u1" })]
    playlist_track_id_records := playlist_track_id_records_from (items_normalized_of [c5Pl])
    track_artist_id_records :=
      track_artist_id_records_from (artists_normalized_of_items (items_normalized_of [c5Pl]))
    artists_records :=
      artists_records_from (artists_normalized_of_items (items_normalized_of [c5Pl])) }

theorem claim5_witness :
    (c5Tables.tracks_records.map Prod.fst).count "T1" = 1
    ∧ "AR1" ∈ c5Tables.artists_records.map fun ar => ar.id :=
  ⟨(claim5_referential_consistency [c5Sp] [c5Pl] c5Tables (by decide)).1
      { playlist_id := "P5", playlist_added_at := "2024", track_id := "T1" } (by decide),
   (claim5_referential_consistency [c5Sp] [c5Pl] c5Tables (by decide)).2
      { artist_id := "AR1", track_id := "T1" } (by decide)⟩

/-- C6: `create_artists_records` deduplicates by the exact `(id, name)` row
only, never by `id` alone: two occurrences of the same artist id under
different names both survive as rows of `artists_records`, while repeated
identical `(id, name)` rows are collapsed to exactly one row. -/
theorem claim6_artists_records_exact_row_dedup
    (s : List SimplifiedPlaylist) (p : List Playlist)
    (a : Option (List ItemsNormalizedRow)) (b : Option (List ArtistsNormalizedRow)) :
    (∀ a1 ∈ artists_normalized_of_items (items_normalized_of p),
     ∀ a2 ∈ artists_normalized_of_items (items_normalized_of p),
      a1.id = a2.id → a1.name ≠ a2.name →
        ({ id := a1.id, name := a1.name } : ArtistsRecRow)
            ∈ ((tableGeneratorInit s p a b).create_artists_records).1
        ∧ ({ id := a2.id, name := a2.name } : ArtistsRecRow)
            ∈ ((tableGeneratorInit s p a b).create_artists_records).1
        ∧ ({ id := a1.id, name := a1.name } : ArtistsRecRow)
            ≠ { id := a2.id, name := a2.name })
    ∧ (∀ a0 ∈ artists_normalized_of_items (items_normalized_of p),
        (((tableGeneratorInit s p a b).create_artists_records).1).count
            { id := a0.id, name := a0.name } = 1) := by
  have hmeth : ((tableGeneratorInit s p a b).create_artists_records).1
      = artists_records_from (artists_normalized_of_items (items_normalized_of p)) := rfl
  constructor
  · intro a1 h1 a2 h2 hid hname
    rw [hmeth]
    refine ⟨mem_dropDuplicates.mpr (List.mem_map_of_mem _ h1),
      mem_dropDuplicates.mpr (List.mem_map_of_mem _ h2), ?_⟩
    intro hcon
    exact hname (congrArg ArtistsRecRow.name hcon)
  · intro a0 h0
    rw [hmeth]
    exact List.count_eq_one_of_mem (nodup_dropDuplicates _)
      (mem_dropDuplicates.mpr (List.mem_map_of_mem _ h0))

def c6Track (artists : List ArtistRef) : Track :=
  { id := "T6", name := "Song", uri := "u6", popularity := 2
    album := { album_type := "single" }, artists := artists }

def c6Pl : Playlist :=
  { id := "P6", followers := ⟨0⟩
    tracks := ⟨[{ added_at := "d1", track := c6Track [⟨"AR1", "X"⟩, ⟨"AR1", "Y"⟩] },
                { added_at := "d2", track := c6Track [⟨"AR1", "X"⟩] }], none⟩ }

theorem claim6_witness :
    (({ id := "AR1", name := "X" } : ArtistsRecRow)
        ∈ ((tableGeneratorInit [] [c6Pl] none none).create_artists_records).1
      ∧ ({ id := "AR1", name := "Y" } : ArtistsRecRow)
        ∈ ((tableGeneratorInit [] [c6Pl] none none).create_artists_records).1
      ∧ ({ id := "AR1", name := "X" } : ArtistsRecRow) ≠ { id := "AR1", name := "Y" })
    ∧ (((tableGeneratorInit [] [c6Pl] none none).create_artists_records).1).count
        { id := "AR1", name := "X" } = 1 :=
  ⟨(claim6_artists_records_exact_row_dedup [] [c6Pl] none none).1
      { id := "AR1", name := "X", track_id := "T6" } (by decide)
      { id := "AR1", name := "Y", track_id := "T6" } (by decide) rfl (by decide),
   (claim6_artists_records_exact_row_dedup [] [c6Pl] none none).2
      { id := "AR1", name := "X", track_id := "T6" } (by decide)⟩

/-- Modelled from the wording of the C7 claim only (not from the code):
remove every literal two-character backslash-n sequence from a string,
removing nothing else.  The code's regex pattern instead matches the single
newline character. -/
def remove_backslash_n_chars : List Char → List Char
  | [] => []
  | '\\' :: 'n' :: cs => remove_backslash_n_chars cs
  | c :: cs => c :: remove_backslash_n_chars cs

/-- String version of `remove_backslash_n_chars`. -/
def remove_backslash_n (st : String) : String :=
  (remove_backslash_n_chars st.data).asString

def c7Sp : SimplifiedPlaylist :=
  { id := "S1", description := "a\\nb", name := "n", snapshot_id := "s"
    tracks := { href := "h", total := 3 } }

/-- C7 counterexample: on a description holding a literal backslash
followed by `n`, `create_category_playlists_records` leaves the description
unchanged, whereas the claim requires the two-character sequence removed. -/
theorem claim7_counterexample :
    (((tableGeneratorInit [c7Sp] [] none none).create_category_playlists_records).1.map
        fun r => r.description) = ["a\\nb"]
    ∧ (["a\\nb"] : List String) ≠ [remove_backslash_n "a\\nb"] := by
  constructor
  · decide
  · decide

/-- C7 (amended): the description column equals the input description with
every newline character removed and no other character removed — the regex
pattern `\n` matches the LF character, not a literal backslash-n
sequence. -/
theorem claim7_description_newline_removed
    (s : List SimplifiedPlaylist) (p : List Playlist)
    (a : Option (List ItemsNormalizedRow)) (b : Option (List ArtistsNormalizedRow)) :
    ((((tableGeneratorInit s p a b).create_category_playlists_records).1).map
        fun r => (r.description).data)
      = s.map fun r => r.description.data.filter fun c => c ≠ '\n' := by
  have hmeth : ((tableGeneratorInit s p a b).create_category_playlists_records).1
      = create_category_playlists_records_from s := rfl
  rw [hmeth]
  unfold create_category_playlists_records_from
  rw [List.map_map]
  refine List.map_congr_left fun r _ => ?_
  simp only [Function.comp_apply, sub_newline]
  rw [show ((sub_newline_chars r.description.data).asString).data
      = (sub_newline_chars r.description.data).asString.toList from rfl]
  rw [List.toList_asString]
  exact sub_newline_chars_eq_filter r.description.data

/-- C9: `TableGenerator.__init__` discards the optional `items_normalized`
and `artists_normalized` constructor arguments: whatever is passed, the
constructed object's cached views are `None`, the object equals the one
built with no cache arguments, and the first use of each view recomputes it
from the playlist DataFrames. -/
theorem claim9_init_discards_cache_args
    (s : List SimplifiedPlaylist) (p : List Playlist)
    (a : Option (List ItemsNormalizedRow)) (b : Option (List ArtistsNormalizedRow)) :
    (tableGeneratorInit s p a b).items_normalized = none
    ∧ (tableGeneratorInit s p a b).artists_normalized = none
    ∧ ((tableGeneratorInit s p a b).getItemsNormalized).1 = items_normalized_of p
    ∧ ((tableGeneratorInit s p a b).getArtistsNormalized).1
        = artists_normalized_of_items (items_normalized_of p)
    ∧ tableGeneratorInit s p a b = tableGeneratorInit s p none none :=
  ⟨rfl, rfl, rfl, rfl, rfl⟩

/-- C8: the Normalizer is deterministic: running the six builders from a
fresh generator gives the same tables whatever cache arguments the
constructor received; re-running them on the generator state left by the
first run (warm caches) returns the same tables again; and any cached view
left behind equals what recomputing it from the inputs produces (including
the deterministic keep-first choice of retained rows in deduplication). -/
theorem claim8_normalizer_deterministic
    (s : List SimplifiedPlaylist) (p : List Playlist)
    (a : Option (List ItemsNormalizedRow)) (b : Option (List ArtistsNormalizedRow)) :
    ((runAllTables (tableGeneratorInit s p a b)).1
        = (runAllTables (tableGeneratorInit s p none none)).1)
    ∧ ((runAllTables ((runAllTables (tableGeneratorInit s p none none)).2)).1
        = (runAllTables (tableGeneratorInit s p none none)).1)
    ∧ (∀ v, (runAllTables (tableGeneratorInit s p none none)).2.items_normalized = some v →
        v = items_normalized_of p)
    ∧ (∀ v, (runAllTables (tableGeneratorInit s p none none)).2.artists_normalized = some v →
        v = artists_normalized_of_items (items_normalized_of p)) := by
  rcases htr : tracks_records_from (items_normalized_of p) with _ | trk
  · refine ⟨rfl, ?_, ?_, ?_⟩
    · simp only [runAllTables, TableGenerator.create_category_playlists_records,
        TableGenerator.create_playlist_records, TableGenerator.create_tracks_records,
        TableGenerator.create_playlist_track_id_records,
        TableGenerator.create_track_artist_id_records, TableGenerator.create_artists_records,
        TableGenerator.getItemsNormalized, TableGenerator.getArtistsNormalized,
        tableGeneratorInit, htr]
    · intro v hv
      simp only [runAllTables, TableGenerator.create_category_playlists_records,
        TableGenerator.create_playlist_records, TableGenerator.create_tracks_records,
        TableGenerator.getItemsNormalized, tableGeneratorInit, htr,
        Option.some.injEq] at hv
      exact hv.symm
    · intro v hv
      simp only [runAllTables, TableGenerator.create_category_playlists_records,
        TableGenerator.create_playlist_records, TableGenerator.create_tracks_records,
        TableGenerator.getItemsNormalized, tableGeneratorInit, htr] at hv
      exact Option.noConfusion hv
  · refine ⟨rfl, ?_, ?_, ?_⟩
    · simp only [runAllTables, TableGenerator.create_category_playlists_records,
        TableGenerator.create_playlist_records, TableGenerator.create_tracks_records,
        TableGenerator.create_playlist_track_id_records,
        TableGenerator.create_track_artist_id_records, TableGenerator.create_artists_records,
        TableGenerator.getItemsNormalized, TableGenerator.getArtistsNormalized,
        tableGeneratorInit, htr]
    · intro v hv
      simp only [runAllTables, TableGenerator.create_category_playlists_records,
        TableGenerator.create_playlist_records, TableGenerator.create_tracks_records,
        TableGenerator.create_playlist_track_id_records,
        TableGenerator.create_track_artist_id_records, TableGenerator.create_artists_records,
        TableGenerator.getItemsNormalized, TableGenerator.getArtistsNormalized,
        tableGeneratorInit, htr, Option.some.injEq] at hv
      exact hv.symm
    · intro v hv
      simp only [runAllTables, TableGenerator.create_category_playlists_records,
        TableGenerator.create_playlist_records, TableGenerator.create_tracks_records,
        TableGenerator.create_playlist_track_id_records,
        TableGenerator.create_track_artist_id_records, TableGenerator.create_artists_records,
        TableGenerator.getItemsNormalized, TableGenerator.getArtistsNormalized,
        tableGeneratorInit, htr, Option.some.injEq] at hv
      exact hv.symm

def c8Pl : Playlist :=
  { id := "P8", followers := ⟨1⟩
    tracks := ⟨[{ added_at := "2024"
                  track := { id := "T8", name := "S", uri := "u", popularity := 1
                             album := { album_type := "album" }
                             artists := [{ id := "AR8", name := "Z" }] } }], none⟩ }

theorem claim8_witness :
    items_normalized_of [c8Pl] = items_normalized_of [c8Pl]
    ∧ artists_normalized_of_items (items_normalized_of [c8Pl])
        = artists_normalized_of_items (items_normalized_of [c8Pl]) :=
  ⟨((claim8_normalizer_deterministic [] [c8Pl] none none).2.2.1
      (items_normalized_of [c8Pl]) (by decide)).symm ▸ rfl,
   ((claim8_normalizer_deterministic [] [c8Pl] none none).2.2.2
      (artists_normalized_of_items (items_normalized_of [c8Pl])) (by decide)).symm ▸ rfl⟩

